import Mathlib

/-!
Verification of the day-5 "Almanac" pipeline (src/src/bin/day05.rs).

The program parses an almanac (a seed list and seven stages of remapping
rules) and computes, for part 1, the minimum image of the listed seeds under
the seven-stage pipeline and, for part 2, the minimum image of all seeds in
the ranges obtained by pairing consecutive entries of the seed list.

The Rust code is embedded shallowly at two levels of arithmetic fidelity:

* a plain model over unbounded `Nat` (`AlmanacMap.apply`, `apply_all`,
  `convert_seed`, `convert_all_seeds_2`, `part1`, `part2`), which coincides
  with the program whenever no intermediate u64 computation reaches `2 ^ 64`;
* a checked 64-bit model (`AlmanacMap.applyChecked`, `apply_all_checked`,
  `convert_seed_checked`, `convert_all_seeds_2_checked`, `part2_checked`)
  that mirrors the program's `usize` evaluation order — including the
  short-circuit of `||` and the laziness of `filter_map(..).next()` — and
  returns `none` exactly where a u64 addition overflows (a panic in debug
  builds, a silent wrap in release builds). Universally quantified statements
  are settled against this model, with explicit fitting hypotheses under
  which it provably agrees with the plain one.

Iterators become lists and fallible results become `Except`/`Option`.
-/

set_option maxRecDepth 4000

/-- Error enum of the Rust source (`enum AocError`); the payloads carried by
`IoError` and `ParseIntError` are irrelevant to the core and elided. -/
inductive AocError where
  | IoError : AocError
  | ParseIntError : AocError
  | InvalidAlmanacMap : String → AocError
  | InvalidAlmanac : AocError
deriving DecidableEq, Repr

/-- One remapping rule, `struct AlmanacMap` in the source: the half-open
source interval `[source_range_start, source_range_start + range_length)`
is mapped by constant offset onto
`[destination_range_start, destination_range_start + range_length)`. -/
structure AlmanacMap where
  destination_range_start : Nat
  source_range_start : Nat
  range_length : Nat
deriving DecidableEq, Repr

/-- `AlmanacMap::apply` in unbounded arithmetic: returns `none` when `value`
lies outside the rule's source interval, otherwise the remapped value. This
coincides with the program's u64 arithmetic whenever
`source_range_start + range_length` and the remapped value stay below
`2 ^ 64`; `AlmanacMap.applyChecked` below is the 64-bit-faithful version. -/
def AlmanacMap.apply (m : AlmanacMap) (value : Nat) : Option Nat :=
  if value < m.source_range_start ∨ value ≥ m.source_range_start + m.range_length then
    none
  else
    some (value - m.source_range_start + m.destination_range_start)

/-- `apply_all`: the first rule (in list order) whose source interval contains
`value` is applied; if no rule matches, `value` passes through unchanged.
Embeds `maps.iter().filter_map(|map| map.apply(value)).next().unwrap_or(value)`. -/
def apply_all (maps : List AlmanacMap) (value : Nat) : Nat :=
  match maps with
  | [] => value
  | m :: rest =>
    match m.apply value with
    | some v => v
    | none => apply_all rest value

/-- `struct Almanac`: the seed list and the seven stages, in pipeline order. -/
structure Almanac where
  seeds : List Nat
  seed_to_soil_maps : List AlmanacMap
  soil_to_fertilizer_maps : List AlmanacMap
  fertilizer_to_water_maps : List AlmanacMap
  water_to_light_maps : List AlmanacMap
  light_to_temperature_maps : List AlmanacMap
  temperature_to_humidity_maps : List AlmanacMap
  humidity_to_location_maps : List AlmanacMap
deriving DecidableEq, Repr

/-- `Almanac::convert_seed`: one seed through the seven stages in order. -/
def Almanac.convert_seed (a : Almanac) (seed : Nat) : Nat :=
  let soil := apply_all a.seed_to_soil_maps seed
  let fertilizer := apply_all a.soil_to_fertilizer_maps soil
  let water := apply_all a.fertilizer_to_water_maps fertilizer
  let light := apply_all a.water_to_light_maps water
  let temperature := apply_all a.light_to_temperature_maps light
  let humidity := apply_all a.temperature_to_humidity_maps temperature
  apply_all a.humidity_to_location_maps humidity

/-- `Almanac::convert_all_seeds`: each listed seed, individually. -/
def Almanac.convert_all_seeds (a : Almanac) : List Nat :=
  a.seeds.map a.convert_seed

/-- Itertools `.tuples::<(_, _)>()` on the seed list: consecutive entries are
paired; a trailing unpaired entry is dropped. -/
def tuples2 : List Nat → List (Nat × Nat)
  | a :: b :: rest => (a, b) :: tuples2 rest
  | _ => []

/-- `Almanac::convert_all_seeds_2` in unbounded arithmetic: consecutive seed
entries are paired into `(start, length)` ranges, each range is expanded to
the values `start, ..., start+length-1` (Rust `start..start + length`), and
every value goes through `convert_seed`. In the program the sum
`start + length` is a u64 addition; `convert_all_seeds_2_checked` below is the
64-bit-faithful version. -/
def Almanac.convert_all_seeds_2 (a : Almanac) : List Nat :=
  ((tuples2 a.seeds).flatMap fun p => List.range' p.1 p.2).map a.convert_seed

/-- `part1` (post-parsing core): minimum of `convert_all_seeds`, or
`InvalidAlmanac` when that list is empty (`.min().ok_or(AocError::InvalidAlmanac)`).
Parsing of the input text into the `Almanac` is elided. -/
def part1 (a : Almanac) : Except AocError Nat :=
  match a.convert_all_seeds.min? with
  | some v => .ok v
  | none => .error .InvalidAlmanac

/-- `part2` (post-parsing core, unbounded arithmetic): minimum of
`convert_all_seeds_2`, or `InvalidAlmanac` when that list is empty. -/
def part2 (a : Almanac) : Except AocError Nat :=
  match a.convert_all_seeds_2.min? with
  | some v => .ok v
  | none => .error .InvalidAlmanac

/-- Upper bound of u64 values: a Rust `usize`/`u64` holds naturals below
2 to the 64th power, and arithmetic exceeding it overflows. -/
def U64 : Nat := 2 ^ 64

/-- `AlmanacMap::apply` under Rust's 64-bit arithmetic, flagging overflow:
returns `none` when evaluating the source expression overflows u64 (either in
the bound `source_range_start + range_length` — computed only when
`value < source_range_start` is false, as `||` short-circuits — or in the
remapped value `value - source_range_start + destination_range_start`), and
`some r` with the overflow-free result `r` of `apply` otherwise. -/
def AlmanacMap.applyChecked (m : AlmanacMap) (value : Nat) : Option (Option Nat) :=
  if value < m.source_range_start then some none
  else if U64 ≤ m.source_range_start + m.range_length then none
  else if value ≥ m.source_range_start + m.range_length then some none
  else if U64 ≤ value - m.source_range_start + m.destination_range_start then none
  else some (some (value - m.source_range_start + m.destination_range_start))

/-- `apply_all` under Rust's 64-bit arithmetic: rules after the first match
are never evaluated (`filter_map(..).next()` is lazy), and any overflow is
propagated as `none`. -/
def apply_all_checked (maps : List AlmanacMap) (value : Nat) : Option Nat :=
  match maps with
  | [] => some value
  | m :: rest =>
    match m.applyChecked value with
    | none => none
    | some (some v) => some v
    | some none => apply_all_checked rest value

/-- `Almanac::convert_seed` under Rust's 64-bit arithmetic: the seven checked
stage applications chained, any overflow propagated as `none`. -/
def Almanac.convert_seed_checked (a : Almanac) (seed : Nat) : Option Nat :=
  Option.bind (apply_all_checked a.seed_to_soil_maps seed) fun soil =>
  Option.bind (apply_all_checked a.soil_to_fertilizer_maps soil) fun fertilizer =>
  Option.bind (apply_all_checked a.fertilizer_to_water_maps fertilizer) fun water =>
  Option.bind (apply_all_checked a.water_to_light_maps water) fun light =>
  Option.bind (apply_all_checked a.light_to_temperature_maps light) fun temperature =>
  Option.bind (apply_all_checked a.temperature_to_humidity_maps temperature) fun humidity =>
  apply_all_checked a.humidity_to_location_maps humidity

/-- `Almanac::convert_all_seeds_2` under Rust's 64-bit arithmetic: the bound
`start + length` of each paired seed range is a u64 addition (it overflows —
panicking in debug, silently wrapping the range to empty in release — when it
reaches `2 ^ 64`), and each expanded value goes through the checked
`convert_seed`; any overflow is propagated as `none`. -/
def Almanac.convert_all_seeds_2_checked (a : Almanac) : Option (List Nat) :=
  ((tuples2 a.seeds).mapM fun p =>
      if U64 ≤ p.1 + p.2 then none
      else (List.range' p.1 p.2).mapM a.convert_seed_checked).map List.flatten

/-- `part2` under Rust's 64-bit arithmetic: `none` when some u64 addition in
the range expansion or the pipeline overflows, otherwise the program's
result. -/
def part2_checked (a : Almanac) : Option (Except AocError Nat) :=
  a.convert_all_seeds_2_checked.map fun l =>
    match l.min? with
    | some v => Except.ok v
    | none => Except.error AocError.InvalidAlmanac

/-- Modelled from the spec: the scalar per-stage lookup of §8's equivalence
law — `stage.lookup(x)` returns the rule-mapped value when some rule's source
interval contains `x` (the first such rule, per the §4.1 tie-break), and `x`
unchanged otherwise. Stated independently of `apply_all` so that the
refinement claim C2 compares the code against the spec's words. -/
def lookupSpec (maps : List AlmanacMap) (x : Nat) : Nat :=
  match maps.find? fun m =>
      decide (m.source_range_start ≤ x) &&
      decide (x < m.source_range_start + m.range_length) with
  | some m => x - m.source_range_start + m.destination_range_start
  | none => x

/-- The pipeline's stages in order, as a list. -/
def Almanac.stages (a : Almanac) : List (List AlmanacMap) :=
  [a.seed_to_soil_maps, a.soil_to_fertilizer_maps, a.fertilizer_to_water_maps,
   a.water_to_light_maps, a.light_to_temperature_maps,
   a.temperature_to_humidity_maps, a.humidity_to_location_maps]

/-- Helper: an almanac with the same stages but a replaced seed list. -/
def Almanac.setSeeds (a : Almanac) (l : List Nat) : Almanac :=
  { a with seeds := l }

/-- Helper: an almanac with the given seed list and seven empty stages. -/
def mkAlmanac (seeds : List Nat) : Almanac :=
  ⟨seeds, [], [], [], [], [], [], []⟩

/-- Helper: an almanac whose first stage contains a rule of length zero. -/
def zeroRuleAlmanac : Almanac :=
  ⟨[79], [⟨50, 98, 0⟩], [], [], [], [], [], []⟩

/-- The almanac parsed from the `EXAMPLE` constant of the source's test module
(the canonical seven-stage example). -/
def exampleAlmanac : Almanac where
  seeds := [79, 14, 55, 13]
  seed_to_soil_maps := [⟨50, 98, 2⟩, ⟨52, 50, 48⟩]
  soil_to_fertilizer_maps := [⟨0, 15, 37⟩, ⟨37, 52, 2⟩, ⟨39, 0, 15⟩]
  fertilizer_to_water_maps := [⟨49, 53, 8⟩, ⟨0, 11, 42⟩, ⟨42, 0, 7⟩, ⟨57, 7, 4⟩]
  water_to_light_maps := [⟨88, 18, 7⟩, ⟨18, 25, 70⟩]
  light_to_temperature_maps := [⟨45, 77, 23⟩, ⟨81, 45, 19⟩, ⟨68, 64, 13⟩]
  temperature_to_humidity_maps := [⟨0, 69, 1⟩, ⟨1, 0, 69⟩]
  humidity_to_location_maps := [⟨60, 56, 37⟩, ⟨56, 93, 4⟩]

/-- The code's first-match-or-identity stage application agrees with the
spec's scalar lookup (in unbounded arithmetic). -/
theorem apply_all_eq_lookupSpec (maps : List AlmanacMap) (x : Nat) :
    apply_all maps x = lookupSpec maps x := by
  induction maps with
  | nil => rfl
  | cons m rest ih =>
    by_cases h : x < m.source_range_start ∨ x ≥ m.source_range_start + m.range_length
    · have hp : (decide (m.source_range_start ≤ x) &&
          decide (x < m.source_range_start + m.range_length)) = false := by
        rcases h with h | h
        · simp [Nat.not_le.mpr h]
        · simp [Nat.not_lt.mpr h]
      simp [apply_all, AlmanacMap.apply, h, lookupSpec, List.find?, hp] at ih ⊢
      exact ih
    · have hp : (decide (m.source_range_start ≤ x) &&
          decide (x < m.source_range_start + m.range_length)) = true := by
        push_neg at h
        simp [h.1, h.2]
      simp [apply_all, AlmanacMap.apply, h, lookupSpec, List.find?, hp]

/-- Under the u64 fitting conditions — every rule's source and destination
intervals fit in u64 — the checked stage application never overflows, agrees
with the plain evaluation, and its result again fits in u64. -/
theorem apply_all_checked_eq_of_fits (maps : List AlmanacMap) (value : Nat)
    (hmaps : ∀ m ∈ maps, m.source_range_start + m.range_length < U64 ∧
      m.destination_range_start + m.range_length ≤ U64)
    (hv : value < U64) :
    apply_all_checked maps value = some (apply_all maps value) ∧
    apply_all maps value < U64 := by
  induction maps with
  | nil => exact ⟨rfl, hv⟩
  | cons m rest ih =>
    obtain ⟨h1, h2⟩ := hmaps m (by simp)
    have ihr := ih fun m' hm' => hmaps m' (by simp [hm'])
    by_cases hlt : value < m.source_range_start
    · have happ : m.apply value = none := by simp [AlmanacMap.apply, hlt]
      simpa [apply_all_checked, AlmanacMap.applyChecked, hlt, apply_all, happ]
        using ihr
    · by_cases hge : value ≥ m.source_range_start + m.range_length
      · have happ : m.apply value = none := by simp [AlmanacMap.apply, hge]
        simpa [apply_all_checked, AlmanacMap.applyChecked, hlt, hge,
          Nat.not_le.mpr h1, apply_all, happ] using ihr
      · have hfit : value - m.source_range_start + m.destination_range_start < U64 := by
          omega
        have happ : m.apply value =
            some (value - m.source_range_start + m.destination_range_start) := by
          simp [AlmanacMap.apply, hlt, hge]
        simp [apply_all_checked, AlmanacMap.applyChecked, hlt, hge,
          Nat.not_le.mpr h1, Nat.not_le.mpr hfit, apply_all, happ, hfit]

/-- Under the fitting conditions on every stage, the checked seven-stage
conversion never overflows, agrees with the plain one, and its result fits in
u64. -/
theorem convert_seed_checked_eq (a : Almanac) (seed : Nat)
    (hstages : ∀ st ∈ a.stages, ∀ m ∈ st,
      m.source_range_start + m.range_length < U64 ∧
      m.destination_range_start + m.range_length ≤ U64)
    (hs : seed < U64) :
    a.convert_seed_checked seed = some (a.convert_seed seed) ∧
    a.convert_seed seed < U64 := by
  obtain ⟨e1, b1⟩ := apply_all_checked_eq_of_fits a.seed_to_soil_maps seed
    (hstages _ (by simp [Almanac.stages])) hs
  obtain ⟨e2, b2⟩ := apply_all_checked_eq_of_fits a.soil_to_fertilizer_maps _
    (hstages _ (by simp [Almanac.stages])) b1
  obtain ⟨e3, b3⟩ := apply_all_checked_eq_of_fits a.fertilizer_to_water_maps _
    (hstages _ (by simp [Almanac.stages])) b2
  obtain ⟨e4, b4⟩ := apply_all_checked_eq_of_fits a.water_to_light_maps _
    (hstages _ (by simp [Almanac.stages])) b3
  obtain ⟨e5, b5⟩ := apply_all_checked_eq_of_fits a.light_to_temperature_maps _
    (hstages _ (by simp [Almanac.stages])) b4
  obtain ⟨e6, b6⟩ := apply_all_checked_eq_of_fits a.temperature_to_humidity_maps _
    (hstages _ (by simp [Almanac.stages])) b5
  obtain ⟨e7, b7⟩ := apply_all_checked_eq_of_fits a.humidity_to_location_maps _
    (hstages _ (by simp [Almanac.stages])) b6
  refine ⟨?_, b7⟩
  simp only [Almanac.convert_seed_checked, Almanac.convert_seed,
    e1, e2, e3, e4, e5, e6, e7, Option.bind]

/-- Under the fitting conditions, the checked conversion of a list of u64
values never overflows and agrees with the plain conversion pointwise. -/
theorem mapM_convert_seed_checked (a : Almanac)
    (hstages : ∀ st ∈ a.stages, ∀ m ∈ st,
      m.source_range_start + m.range_length < U64 ∧
      m.destination_range_start + m.range_length ≤ U64) :
    ∀ l : List Nat, (∀ x ∈ l, x < U64) →
      l.mapM a.convert_seed_checked = some (l.map a.convert_seed)
  | [], _ => rfl
  | x :: rest, h => by
    rw [List.mapM_cons, (convert_seed_checked_eq a x hstages (h x (by simp))).1,
      mapM_convert_seed_checked a hstages rest fun y hy => h y (by simp [hy])]
    rfl

/-- Under the fitting conditions on the paired seed ranges and on every
stage, the checked part-2 expansion never overflows and agrees with the plain
one. -/
theorem convert_all_seeds_2_checked_eq (a : Almanac)
    (hseeds : ∀ p ∈ tuples2 a.seeds, p.1 + p.2 < U64)
    (hstages : ∀ st ∈ a.stages, ∀ m ∈ st,
      m.source_range_start + m.range_length < U64 ∧
      m.destination_range_start + m.range_length ≤ U64) :
    a.convert_all_seeds_2_checked = some a.convert_all_seeds_2 := by
  have key : ∀ ps : List (Nat × Nat), (∀ p ∈ ps, p.1 + p.2 < U64) →
      ps.mapM (fun p => if U64 ≤ p.1 + p.2 then none
        else (List.range' p.1 p.2).mapM a.convert_seed_checked)
      = some (ps.map fun p => (List.range' p.1 p.2).map a.convert_seed) := by
    intro ps
    induction ps with
    | nil => intro _; rfl
    | cons p rest ih =>
      intro h
      have hp := h p (by simp)
      have hrange : ∀ x ∈ List.range' p.1 p.2, x < U64 := by
        intro x hx
        have := List.mem_range'_1.mp hx
        omega
      rw [List.mapM_cons, if_neg (Nat.not_le.mpr hp),
        mapM_convert_seed_checked a hstages _ hrange,
        ih fun q hq => h q (by simp [hq])]
      rfl
  unfold Almanac.convert_all_seeds_2_checked
  rw [key (tuples2 a.seeds) hseeds]
  unfold Almanac.convert_all_seeds_2
  simp [List.flatMap, Function.comp_def]

/-- Under the fitting conditions, the checked part-2 run never overflows and
computes exactly the plain model's result. -/
theorem part2_checked_eq (a : Almanac)
    (hseeds : ∀ p ∈ tuples2 a.seeds, p.1 + p.2 < U64)
    (hstages : ∀ st ∈ a.stages, ∀ m ∈ st,
      m.source_range_start + m.range_length < U64 ∧
      m.destination_range_start + m.range_length ≤ U64) :
    part2_checked a = some (part2 a) := by
  unfold part2_checked part2
  rw [convert_all_seeds_2_checked_eq a hseeds hstages]
  rfl

/-- Pairing ignores a trailing element appended to an even-length list. -/
theorem tuples2_append_singleton (x : Nat) :
    ∀ l : List Nat, l.length % 2 = 0 → tuples2 (l ++ [x]) = tuples2 l
  | [], _ => rfl
  | [a], h => absurd h (by simp)
  | a :: b :: rest, h => by
    show (a, b) :: tuples2 (rest ++ [x]) = (a, b) :: tuples2 rest
    rw [tuples2_append_singleton x rest (by simp at h; omega)]

/-- C1: on the canonical example almanac, evaluating the seeds 79, 14, 55, 13
individually through the seven-stage pipeline and taking the minimum yields 35
(part 1), and evaluating the seed ranges (79,14) and (55,13) — every integer in
[79,93) and [55,68) — through the same pipeline and taking the minimum yields
46 (part 2). -/
theorem c1_example_pipeline :
    part1 exampleAlmanac = .ok 35 ∧ part2 exampleAlmanac = .ok 46 := by
  constructor <;> rfl

/-- C6: for the single rule with source_start 98, length 2, destination_start
50, stage lookup has exact half-open boundary semantics: 97 maps to 97 (no rule
applies), 98 to 50, 99 to 51, and 100 to 100 (no rule applies). -/
theorem c6_boundary_semantics :
    apply_all [⟨50, 98, 2⟩] 97 = 97 ∧
    apply_all [⟨50, 98, 2⟩] 98 = 50 ∧
    apply_all [⟨50, 98, 2⟩] 99 = 51 ∧
    apply_all [⟨50, 98, 2⟩] 100 = 100 ∧
    AlmanacMap.apply ⟨50, 98, 2⟩ 97 = none ∧
    AlmanacMap.apply ⟨50, 98, 2⟩ 100 = none := by
  refine ⟨?_, ?_, ?_, ?_, ?_, ?_⟩ <;> rfl

/-- C8: a stage with an empty rule list is the identity on every value. -/
theorem c8_empty_stage_identity (v : Nat) : apply_all [] v = v := rfl

/-- C2 counterexample: with the seven stages empty and the seed value
2^64 - 1, the scalar fold of the stage lookups returns 2^64 - 1, but the
program's run on the single seed range (2^64 - 1, 1) fails: the u64 addition
in the Rust range `v..v + 1` overflows (debug builds panic; release builds
wrap the range to empty and return an error), so the claim's equivalence does
not hold for every seed value. -/
theorem c2_counterexample :
    part2_checked (mkAlmanac [U64 - 1, 1]) = none ∧
    (mkAlmanac [U64 - 1, 1]).stages.foldl (fun x st => lookupSpec st x) (U64 - 1) =
      U64 - 1 := by
  constructor <;> rfl

/-- C2 (amended): for every almanac (arbitrary seven-stage sequence) and every
seed value v that fits with its range bound in u64 (v + 1 < 2^64), provided
every rule's source and destination intervals fit in u64, running the pipeline
on the single seed range (v, 1) under checked 64-bit semantics succeeds and
produces the same result as the scalar left fold of the stages over v, where
each stage's lookup returns the rule-mapped value if some rule's source
interval contains v (the first such rule) and v unchanged otherwise. The
counterexample forces the fitting hypotheses, which the original claim's
"every seed value" does not provide. -/
theorem c2_scalar_refinement_under_fitting (a : Almanac) (v : Nat)
    (hv : v + 1 < U64)
    (hstages : ∀ st ∈ a.stages, ∀ m ∈ st,
      m.source_range_start + m.range_length < U64 ∧
      m.destination_range_start + m.range_length ≤ U64) :
    part2_checked (a.setSeeds [v, 1]) =
      some (.ok (a.stages.foldl (fun x st => lookupSpec st x) v)) := by
  have hseeds : ∀ p ∈ tuples2 (a.setSeeds [v, 1]).seeds, p.1 + p.2 < U64 := by
    intro p hp
    have : p = (v, 1) := by
      simpa [Almanac.setSeeds, tuples2] using hp
    simp [this]
    omega
  have hpart : part2 (a.setSeeds [v, 1]) =
      .ok (a.stages.foldl (fun x st => lookupSpec st x) v) := by
    have hconv : (a.setSeeds [v, 1]).convert_all_seeds_2 = [a.convert_seed v] := by
      simp [Almanac.convert_all_seeds_2, Almanac.setSeeds, tuples2, List.range']
      rfl
    have hfold : a.stages.foldl (fun x st => lookupSpec st x) v = a.convert_seed v := by
      simp [Almanac.stages, Almanac.convert_seed, List.foldl,
        ← apply_all_eq_lookupSpec]
    rw [hfold, part2, hconv]
    rfl
  rw [part2_checked_eq (a.setSeeds [v, 1]) hseeds hstages, hpart]

/-- Witness for C2 (amended): on the example almanac's stages and the seed
range (79, 1), the checked run succeeds and equals the scalar fold. -/
theorem c2_scalar_refinement_under_fitting_witness :
    part2_checked (exampleAlmanac.setSeeds [79, 1]) =
      some (.ok (exampleAlmanac.stages.foldl (fun x st => lookupSpec st x) 79)) :=
  c2_scalar_refinement_under_fitting exampleAlmanac 79 (by norm_num [U64])
    (by decide)

/-- C3 counterexample: the seed list [5, 0] yields the non-empty seed-range
input [(5, 0)], yet the expanded value set is empty (the single range has
length zero) and the run fails — in the checked 64-bit model and in the plain
one alike, since 5 + 0 cannot overflow; this refutes "the final result set is
empty only if the input set of seed ranges was empty" and "for every non-empty
input of seed ranges, the run succeeds". (The last conjunct records the second
failure mode, 64-bit overflow at seeds [2^64 - 1, 2], which forces the
amendment's fitting hypotheses.) -/
theorem c3_counterexample :
    tuples2 (mkAlmanac [5, 0]).seeds = [(5, 0)] ∧
    part2_checked (mkAlmanac [5, 0]) = some (.error .InvalidAlmanac) ∧
    part2 (mkAlmanac [5, 0]) = .error .InvalidAlmanac ∧
    part2_checked (mkAlmanac [U64 - 1, 2]) = none := by
  refine ⟨rfl, rfl, rfl, rfl⟩

/-- C3 (amended): under the u64 fitting conditions — every paired seed range
satisfies start + length < 2^64 and every rule's source and destination
intervals fit in u64 — the checked 64-bit run never overflows and computes the
plain model's result, and then: the run fails (with the code's
`InvalidAlmanac` error in place of the spec's `EmptyInput`) exactly when the
final result list is empty; the final result list is empty exactly when every
paired seed range has length zero — which can happen for a non-empty
seed-range input such as [(5, 0)]; any returned value is the minimum mapped
value; and whenever some paired seed range has positive length the run
succeeds. Without the fitting conditions the run can also fail by 64-bit
overflow (seeds [2^64 - 1, 2] in the counterexample). -/
theorem c3_empty_input_behaviour (a : Almanac)
    (hseeds : ∀ p ∈ tuples2 a.seeds, p.1 + p.2 < U64)
    (hstages : ∀ st ∈ a.stages, ∀ m ∈ st,
      m.source_range_start + m.range_length < U64 ∧
      m.destination_range_start + m.range_length ≤ U64) :
    part2_checked a = some (part2 a) ∧
    (part2 a = .error .InvalidAlmanac ↔ a.convert_all_seeds_2 = []) ∧
    (a.convert_all_seeds_2 = [] ↔ ∀ p ∈ tuples2 a.seeds, p.2 = 0) ∧
    (∀ m, part2 a = .ok m →
      m ∈ a.convert_all_seeds_2 ∧ ∀ x ∈ a.convert_all_seeds_2, m ≤ x) ∧
    ((∃ p ∈ tuples2 a.seeds, 0 < p.2) → ∃ m, part2 a = .ok m) := by
  have hempty : a.convert_all_seeds_2 = [] ↔ ∀ p ∈ tuples2 a.seeds, p.2 = 0 := by
    simp [Almanac.convert_all_seeds_2, List.map_eq_nil_iff, List.flatMap_eq_nil_iff,
      List.range'_eq_nil]
  refine ⟨part2_checked_eq a hseeds hstages, ?_, hempty, ?_, ?_⟩
  · unfold part2
    cases h : a.convert_all_seeds_2.min? with
    | none => simpa using List.min?_eq_none_iff.mp h
    | some v =>
      simp only [reduceCtorEq, false_iff]
      intro hnil
      rw [hnil] at h
      simp at h
  · intro m hm
    unfold part2 at hm
    cases h : a.convert_all_seeds_2.min? with
    | none => rw [h] at hm; simp at hm
    | some v =>
      rw [h] at hm
      simp only [Except.ok.injEq] at hm
      subst hm
      simpa using List.min?_eq_some_iff'.mp h
  · rintro ⟨p, hp, hpos⟩
    cases h : a.convert_all_seeds_2.min? with
    | none =>
      have := hempty.mp (List.min?_eq_none_iff.mp h) p hp
      omega
    | some v =>
      refine ⟨v, ?_⟩
      unfold part2
      rw [h]

/-- Witness for C3 (amended): on the seed list [79, 2, 55, 0] — the seed
ranges (79, 2) and (55, 0), the first of positive length, all sums fitting in
u64 — the run succeeds. -/
theorem c3_empty_input_behaviour_witness :
    ∃ m, part2 (mkAlmanac [79, 2, 55, 0]) = .ok m :=
  (c3_empty_input_behaviour (mkAlmanac [79, 2, 55, 0]) (by decide)
    (by decide)).2.2.2.2 ⟨(79, 2), by decide, by decide⟩

/-- C4 counterexample: an almanac containing the zero-length rule
(destination 50, source 98, length 0) runs to completion with `.ok 79` — no
error at all is produced, and the code's error enum (`AocError`) has no
`MalformedRule` variant; this refutes "the core fails with the MalformedRule
error when a rule whose length is zero is given to it". -/
theorem c4_counterexample : part1 zeroRuleAlmanac = .ok 79 := rfl

/-- C4 (amended): a rule whose length is zero is accepted by the core without
any error: the core's stage application is total, and a stage consisting of
such a rule is the identity passthrough on every value (the rule never
matches). No `MalformedRule` error exists in the code. -/
theorem c4_zero_length_rule_accepted (d s v : Nat) :
    apply_all [⟨d, s, 0⟩] v = v := by
  simp [apply_all, AlmanacMap.apply, Nat.lt_or_ge]

/-- C5 counterexample: the rule (destination 0, source 2^64 - 1, length 1) is
well-formed in the claim's sense (length is positive) and every field fits in
u64, yet applying it to the u64 value 2^64 - 1 overflows in the bound
computation `source_range_start + range_length` (2^64 does not fit in u64);
this refutes "evaluation never fails (no panic, no arithmetic underflow or
overflow) for every well-formed input and every u64 value". -/
theorem c5_counterexample :
    0 < (⟨0, U64 - 1, 1⟩ : AlmanacMap).range_length ∧
    U64 - 1 < U64 ∧
    AlmanacMap.applyChecked ⟨0, U64 - 1, 1⟩ (U64 - 1) = none := by
  refine ⟨by decide, by norm_num [U64], ?_⟩
  have h1 : ¬(U64 - 1 < U64 - 1) := by omega
  have h2 : U64 ≤ U64 - 1 + 1 := by norm_num [U64]
  simp [AlmanacMap.applyChecked, h1, h2]

/-- C5 (amended): stage application is a pure, deterministic, total function
of its inputs, never underflows, and never overflows provided every rule's
source interval and destination interval fit in u64 — that is,
`source_range_start + range_length < 2^64` and
`destination_range_start + range_length ≤ 2^64`: under those conditions the
checked 64-bit evaluation succeeds, agrees with the plain evaluation, and the
result again fits in u64. The counterexample forces the fitting conditions,
which the claim's well-formedness (`length > 0` alone) does not imply. -/
theorem c5_stage_application_total (maps : List AlmanacMap) (value : Nat)
    (hmaps : ∀ m ∈ maps, m.source_range_start + m.range_length < U64 ∧
      m.destination_range_start + m.range_length ≤ U64)
    (hv : value < U64) :
    apply_all_checked maps value = some (apply_all maps value) ∧
    apply_all maps value < U64 :=
  apply_all_checked_eq_of_fits maps value hmaps hv

/-- Witness for C5 (amended): on the example's first stage and the u64 value
79, the checked evaluation succeeds and agrees with the plain one. -/
theorem c5_stage_application_total_witness :
    apply_all_checked [⟨50, 98, 2⟩, ⟨52, 50, 48⟩] 79 =
      some (apply_all [⟨50, 98, 2⟩, ⟨52, 50, 48⟩] 79) ∧
    apply_all [⟨50, 98, 2⟩, ⟨52, 50, 48⟩] 79 < U64 :=
  c5_stage_application_total [⟨50, 98, 2⟩, ⟨52, 50, 48⟩] 79
    (by norm_num [U64]) (by norm_num [U64])

/-- C7 counterexample: in the stage [(0, 2^64 - 2, 2), (7, 2^64 - 2, 1)] both
rules' source intervals contain the u64 value 2^64 - 2, so by the claim the
first rule should be applied (yielding 0); but the program's 64-bit evaluation
of the first rule overflows in its bound computation (2^64 - 2 + 2 = 2^64):
debug builds panic, and release builds wrap the bound to 0 so the first rule
never matches and the second rule is applied instead (yielding 7). Either way
the stage does not return the first matching rule's value. -/
theorem c7_counterexample :
    AlmanacMap.apply ⟨0, U64 - 2, 2⟩ (U64 - 2) = some 0 ∧
    AlmanacMap.apply ⟨7, U64 - 2, 1⟩ (U64 - 2) = some 7 ∧
    apply_all_checked [⟨0, U64 - 2, 2⟩, ⟨7, U64 - 2, 1⟩] (U64 - 2) = none := by
  have h1 : ¬(U64 - 2 < U64 - 2) := by omega
  have h2 : ¬(U64 - 2 ≥ U64 - 2 + 2) := by omega
  have h3 : ¬(U64 - 2 ≥ U64 - 2 + 1) := by omega
  have h4 : U64 - 2 - (U64 - 2) = 0 := by omega
  have h5 : U64 ≤ U64 - 2 + 2 := by norm_num [U64]
  refine ⟨?_, ?_, ?_⟩
  · simp [AlmanacMap.apply, h1, h2, h4]
  · simp [AlmanacMap.apply, h1, h3, h4]
  · simp [apply_all_checked, AlmanacMap.applyChecked, h1, h5]

/-- C7 (amended): for every stage and every u64 value v, if v falls inside
the source range of more than one rule, the rule encountered first in the
stage's iteration order is the one applied and later matching rules are
ignored (they are not even evaluated), provided the rules up to and including
the first match have u64-fitting source and destination intervals: whenever no
rule of `pre` matches v and `m` maps v to w, the checked 64-bit evaluation of
the stage `pre ++ m :: post` succeeds with w — with no condition at all on
`post` — and the plain evaluation agrees. The counterexample forces the
fitting hypotheses: an overflowing earlier rule is skipped (release) or panics
(debug) instead of winning. -/
theorem c7_first_match_wins_checked (pre post : List AlmanacMap)
    (m : AlmanacMap) (v w : Nat)
    (hfit : ∀ m' ∈ pre ++ [m], m'.source_range_start + m'.range_length < U64 ∧
      m'.destination_range_start + m'.range_length ≤ U64)
    (hv : v < U64)
    (hpre : ∀ m' ∈ pre, m'.apply v = none)
    (hm : m.apply v = some w) :
    apply_all_checked (pre ++ m :: post) v = some w ∧
    apply_all (pre ++ m :: post) v = w := by
  induction pre with
  | nil =>
    obtain ⟨hm1, hm2⟩ := hfit m (by simp)
    have hcond : ¬(v < m.source_range_start ∨
        v ≥ m.source_range_start + m.range_length) := by
      intro hc
      simp [AlmanacMap.apply, hc] at hm
    push_neg at hcond
    obtain ⟨hs, hlt⟩ := hcond
    have hw : w = v - m.source_range_start + m.destination_range_start := by
      simp [AlmanacMap.apply, Nat.not_lt.mpr hs, Nat.not_le.mpr hlt] at hm
      omega
    have hwlt : v - m.source_range_start + m.destination_range_start < U64 := by
      omega
    constructor
    · simp [apply_all_checked, AlmanacMap.applyChecked, Nat.not_lt.mpr hs,
        Nat.not_le.mpr hm1, Nat.not_le.mpr hlt, Nat.not_le.mpr hwlt, hw]
    · simp [apply_all, hm]
  | cons p rest ih =>
    have hp : p.apply v = none := hpre p (by simp)
    obtain ⟨hp1, hp2⟩ := hfit p (by simp)
    have hdis : v < p.source_range_start ∨
        v ≥ p.source_range_start + p.range_length := by
      by_contra hc
      simp [AlmanacMap.apply, hc] at hp
    obtain ⟨ih1, ih2⟩ := ih
      (fun m' hm' => hfit m' (by simp at hm' ⊢; tauto))
      (fun m' hm' => hpre m' (by simp [hm']))
    constructor
    · rcases hdis with h | h
      · simpa [apply_all_checked, AlmanacMap.applyChecked, h] using ih1
      · have hns : ¬v < p.source_range_start := by omega
        simpa [apply_all_checked, AlmanacMap.applyChecked, hns,
          Nat.not_le.mpr hp1, h] using ih1
    · simpa [apply_all, hp] using ih2

/-- Witness for C7 (amended): with a non-matching rule first, then two rules
whose source ranges both contain 10 — all sums fitting in u64 — the first
matching rule (mapping 10 to 7) wins over the later one (which would map 10 to
100), in the checked and the plain evaluation alike. -/
theorem c7_first_match_wins_checked_witness :
    apply_all_checked ([⟨50, 98, 2⟩] ++ ⟨7, 10, 5⟩ :: [⟨100, 10, 5⟩]) 10 = some 7 ∧
    apply_all ([⟨50, 98, 2⟩] ++ ⟨7, 10, 5⟩ :: [⟨100, 10, 5⟩]) 10 = 7 :=
  c7_first_match_wins_checked [⟨50, 98, 2⟩] [⟨100, 10, 5⟩] ⟨7, 10, 5⟩ 10 7
    (by decide) (by decide) (by decide) (by decide)

/-- C9: if the almanac's seed list has an odd number of entries, the part-2
range evaluation silently ignores the final unpaired seed value:
`convert_all_seeds_2` pairs consecutive seeds into (start, length) tuples and
drops the incomplete trailing tuple, producing the same values as without it
rather than reporting an error. -/
theorem c9_odd_seed_dropped (a : Almanac) (l : List Nat) (x : Nat)
    (h : l.length % 2 = 0) :
    (a.setSeeds (l ++ [x])).convert_all_seeds_2 =
      (a.setSeeds l).convert_all_seeds_2 := by
  simp only [Almanac.convert_all_seeds_2]
  rw [show (a.setSeeds (l ++ [x])).seeds = l ++ [x] from rfl,
    tuples2_append_singleton x l h]
  rfl

/-- Witness for C9: appending the unpaired seed 999 to the seed list [79, 2]
leaves the part-2 evaluation of the example stages unchanged. -/
theorem c9_odd_seed_dropped_witness :
    (exampleAlmanac.setSeeds ([79, 2] ++ [999])).convert_all_seeds_2 =
      (exampleAlmanac.setSeeds [79, 2]).convert_all_seeds_2 :=
  c9_odd_seed_dropped exampleAlmanac [79, 2] 999 (by decide)

/-- C10: a rule with range_length zero is inert: its `apply` returns `none`
on every value, so within any stage it behaves exactly as if absent and lookup
falls through to the other rules or to identity passthrough. -/
theorem c10_zero_length_rule_inert (m : AlmanacMap) (h : m.range_length = 0)
    (v : Nat) :
    m.apply v = none ∧
    ∀ pre post : List AlmanacMap,
      apply_all (pre ++ m :: post) v = apply_all (pre ++ post) v := by
  have happ : m.apply v = none := by
    simp [AlmanacMap.apply, h, Nat.lt_or_ge v m.source_range_start]
  refine ⟨happ, fun pre post => ?_⟩
  induction pre with
  | nil => simp [apply_all, happ]
  | cons p rest ih =>
    cases hp : p.apply v <;> simp [apply_all, hp, ih]

/-- Witness for C10: the zero-length rule (50, 98, 0) never matches, and a
stage containing it behaves as the stage without it. -/
theorem c10_zero_length_rule_inert_witness :
    AlmanacMap.apply ⟨50, 98, 0⟩ 98 = none ∧
    ∀ pre post : List AlmanacMap,
      apply_all (pre ++ ⟨50, 98, 0⟩ :: post) 98 = apply_all (pre ++ post) 98 :=
  c10_zero_length_rule_inert ⟨50, 98, 0⟩ rfl 98
